import Mathlib

/-!
Verification of the movie-agent pipeline (`src/movie_agent.py`).

The program is shallowly embedded: dictionaries coming from JSON become
records with `Option` fields (`.get(k)` is the field itself, `.get(k, d)`
is `Option.getD`), Python floats become `Rat`, Python `str` values are
Lean `String`s, and every network- or clock-reading call site is a
function parameter ("oracle") supplying the value that the HTTP response
or the clock would have produced.  All definitions are executable.
-/

namespace MovieAgent

/-! ## Python string primitives -/

/-- Characters stripped by Python `str.strip()` / `str.rstrip()`
(the ASCII whitespace set). -/
def isPySpace (c : Char) : Bool :=
  c = ' ' || c = '\t' || c = '\n' || c = '\r' || c = '\x0b' || c = '\x0c'

/-- Python `str.rstrip()` on a character list. -/
def pyRstripList (l : List Char) : List Char :=
  (l.reverse.dropWhile isPySpace).reverse

/-- Python `str.strip()` on a character list. -/
def pyStripList (l : List Char) : List Char :=
  pyRstripList (l.dropWhile isPySpace)

/-- Python `str.strip()`. -/
def pyStrip (s : String) : String :=
  String.mk (pyStripList s.data)

/-- Python `str.upper()` (ASCII case folding; certification codes are ASCII). -/
def pyUpper (s : String) : String :=
  String.mk (s.data.map Char.toUpper)

/-- Python slicing `s[:k]`: a non-negative bound keeps the first `k`
characters, a negative bound drops the last `-k`. -/
def pySliceTo (l : List Char) (k : Int) : List Char :=
  if 0 ≤ k then l.take k.toNat else l.take (l.length - (-k).toNat)

/-- `sub.isPrefixOf`-based substring test: Python `sub in s` on char lists. -/
def containsFrom (sub : List Char) : List Char → Bool
  | [] => sub.isPrefixOf []
  | c :: rest => sub.isPrefixOf (c :: rest) || containsFrom sub rest

/-- Python `sub in s` for strings. -/
def strContains (s sub : String) : Bool :=
  containsFrom sub.data s.data

/-- Python `s.startswith(pre)`. -/
def strStarts (s pre : String) : Bool :=
  pre.data.isPrefixOf s.data

/-- Python `", ".join(l)`. -/
def joinComma (l : List String) : String :=
  match l with
  | [] => ""
  | x :: rest => rest.foldl (fun acc s => acc ++ ", " ++ s) x

/-- Python `"\n".join(l)`. -/
def joinNewline (l : List String) : String :=
  match l with
  | [] => ""
  | x :: rest => rest.foldl (fun acc s => acc ++ "\n" ++ s) x

/-- Truthiness of Python `str`-or-`None` values (`None` and `""` are falsy). -/
def strTruthy : Option String → Bool
  | none => false
  | some s => if s = "" then false else true

/-- Python `a or b` for a string-or-`None` `a` with a string default `b`. -/
def pyOrStr (a : Option String) (b : String) : String :=
  match a with
  | none => b
  | some s => if s = "" then b else s

/-! ## Calendar dates (`datetime.date`) -/

/-- A `datetime.date`: year, month, day. -/
structure PyDate where
  year : Nat
  month : Nat
  day : Nat
deriving DecidableEq, Repr

/-- Lexicographic `d1 <= d2` on dates, as Python's `date.__le__`. -/
def PyDate.leb (a b : PyDate) : Bool :=
  if a.year ≠ b.year then a.year < b.year
  else if a.month ≠ b.month then a.month < b.month
  else a.day ≤ b.day

/-- Strict `d1 < d2` on dates. -/
def PyDate.ltb (a b : PyDate) : Bool :=
  !(b.leb a)

/-- `date(1970, 1, 1)`. -/
def epochDate : PyDate := ⟨1970, 1, 1⟩

/-- Gregorian leap-year test, as `calendar`/`datetime` use. -/
def isLeapYear (y : Nat) : Bool :=
  y % 4 = 0 && (y % 100 ≠ 0 || y % 400 = 0)

/-- Number of days in a month of a given year. -/
def daysInMonth (y m : Nat) : Nat :=
  if m = 1 ∨ m = 3 ∨ m = 5 ∨ m = 7 ∨ m = 8 ∨ m = 10 ∨ m = 12 then 31
  else if m = 4 ∨ m = 6 ∨ m = 9 ∨ m = 11 then 30
  else if m = 2 then (if isLeapYear y then 29 else 28)
  else 0

/-- Numeric value of a decimal digit character. -/
def digitVal (c : Char) : Nat := c.toNat - '0'.toNat

/-- `date.fromisoformat`: parses exactly `YYYY-MM-DD` and validates the
calendar date; any other input raises `ValueError`, modelled as `none`. -/
def dateFromIsoformat (s : String) : Option PyDate :=
  match s.data with
  | [y1, y2, y3, y4, sep1, m1, m2, sep2, d1, d2] =>
    if y1.isDigit ∧ y2.isDigit ∧ y3.isDigit ∧ y4.isDigit ∧
       sep1 = '-' ∧ m1.isDigit ∧ m2.isDigit ∧
       sep2 = '-' ∧ d1.isDigit ∧ d2.isDigit then
      let y := ((digitVal y1 * 10 + digitVal y2) * 10 + digitVal y3) * 10 + digitVal y4
      let m := digitVal m1 * 10 + digitVal m2
      let d := digitVal d1 * 10 + digitVal d2
      if 1 ≤ y ∧ 1 ≤ m ∧ m ≤ 12 ∧ 1 ≤ d ∧ d ≤ daysInMonth y m then
        some ⟨y, m, d⟩
      else none
    else none
  | _ => none

/-- Zero-padded two-digit rendering (`%02d`). -/
def pad2 (n : Nat) : String :=
  if n < 10 then "0" ++ toString n else toString n

/-- Zero-padded four-digit rendering (`%04d`). -/
def pad4 (n : Nat) : String :=
  if n < 10 then "000" ++ toString n
  else if n < 100 then "00" ++ toString n
  else if n < 1000 then "0" ++ toString n
  else toString n

/-- `date.isoformat()`: `YYYY-MM-DD`. -/
def PyDate.isoformat (d : PyDate) : String :=
  pad4 d.year ++ "-" ++ pad2 d.month ++ "-" ++ pad2 d.day

/-! ## History entries and `was_recently_sent` -/

/-- One entry of the loaded history list: a dict from which the code reads
`entry.get("id")` and `entry.get("date", "1970-01-01")`. -/
structure HEntry where
  id : Option Int
  date : Option String
deriving DecidableEq, Repr

/-- The `try: date.fromisoformat(...) except ValueError: date(1970,1,1)`
step of `was_recently_sent`, with the `.get("date", "1970-01-01")` default. -/
def parseEntryDate (e : HEntry) : PyDate :=
  match dateFromIsoformat (e.date.getD "1970-01-01") with
  | some d => d
  | none => epochDate

/-- `was_recently_sent(movie_id, history, cutoff_date)` (lines 80-89):
scans the history and returns `True` on the first entry whose id matches
and whose (defaulted, fallback-parsed) date is `>= cutoff_date`. -/
def was_recently_sent (movieId : Int) : List HEntry → PyDate → Bool
  | [], _ => false
  | e :: rest, cutoff =>
    if e.id = some movieId then
      if cutoff.leb (parseEntryDate e) then true
      else was_recently_sent movieId rest cutoff
    else was_recently_sent movieId rest cutoff

/-! ## Certification mapping and region scans -/

/-- `CERT_REGIONS_PRIORITY` (line 21). -/
def CERT_REGIONS_PRIORITY : List String := ["IN", "US", "PK"]

/-- `WATCH_REGION_PRIORITY` (line 24). -/
def WATCH_REGION_PRIORITY : List String := ["PK", "IN", "US"]

/-- `MAJOR_PROVIDERS` (lines 25-42). -/
def MAJOR_PROVIDERS : List String :=
  ["Netflix", "Amazon Prime Video", "Disney Plus", "Hotstar", "JioCinema",
   "ZEE5", "Zee5", "Sony Liv", "SonyLIV", "Hulu", "HBO Max", "Apple TV",
   "Apple TV+", "Google Play Movies", "YouTube", "MX Player"]

/-- `map_certification_to_age_bucket(cert)` (lines 208-233).  The argument
is `Option String` because the caller passes `chosen_cert`, which may be
`None`; `if not cert` also catches `""`. -/
def map_certification_to_age_bucket (cert : Option String) : String :=
  match cert with
  | none => "Not rated"
  | some certStr =>
    if certStr = "" then "Not rated"
    else
      let c := pyStrip (pyUpper certStr)
      if c = "G" ∨ c = "PG" ∨ c = "U" ∨ strContains c "ALL" then "All ages"
      else if strContains c "PG-13" ∨ strContains c "U/A" ∨ strContains c "12" ∨ c = "13" then "13+"
      else if strStarts c "16" ∨ c = "R" ∨ c = "A" then "16+"
      else if strStarts c "18" ∨ c = "NC-17" then "18+"
      else "Not rated"

/-- One element of a `release_dates` entry's inner `release_dates` list. -/
structure RelEntry where
  certification : Option String
deriving DecidableEq, Repr

/-- One element of `release_dates["results"]`: a per-region entry. -/
structure RegionEntry where
  iso_3166_1 : Option String
  release_dates : List RelEntry
deriving DecidableEq, Repr

/-- Inner `for r in rels` loop of `get_age_rating_from_release_dates`:
first truthy certification wins. -/
def certFromRels : List RelEntry → Option String
  | [] => none
  | r :: rest =>
    match r.certification with
    | some c => if c = "" then certFromRels rest else some c
    | none => certFromRels rest

/-- Middle `for entry in results` loop, for a fixed region: the first
entry for that region that yields a truthy certification wins. -/
def certFromEntries (region : String) : List RegionEntry → Option String
  | [] => none
  | e :: rest =>
    if e.iso_3166_1 = some region then
      match certFromRels e.release_dates with
      | some c => some c
      | none => certFromEntries region rest
    else certFromEntries region rest

/-- Outer `for region in CERT_REGIONS_PRIORITY` loop: stop at the first
region that produced a certification. -/
def scanCertRegions (results : List RegionEntry) : List String → Option String
  | [] => none
  | reg :: rest =>
    match certFromEntries reg results with
    | some c => some c
    | none => scanCertRegions results rest

/-- `get_age_rating_from_release_dates(release_dates)` (lines 236-260).
`none` models a missing/falsy `release_dates` object; `some results`
models `release_dates["results"]`. -/
def get_age_rating_from_release_dates (rd : Option (List RegionEntry)) : String :=
  match rd with
  | none => "Not rated"
  | some results => map_certification_to_age_bucket (scanCertRegions results CERT_REGIONS_PRIORITY)

/-! ## Streaming providers (`get_streaming_providers`, lines 291-343)

The HTTP request part is abstracted: `ProvidersResults` is the decoded
`data["results"]` map of the watch/providers response (region code →
category map).  `streamingFromResults` is the remaining, pure part of
`get_streaming_providers`. -/

/-- One element of a category list: a dict read via `p.get("provider_name")`. -/
structure ProviderRec where
  provider_name : Option String
deriving DecidableEq, Repr

/-- Per-region data: dict category (`"flatrate"`/`"rent"`/`"buy"`/...) →
provider list; `some none` models a key present with value `None`
(handled by `region_data.get(key, []) or []`). -/
def RegionProviderData := List (String × Option (List ProviderRec))
deriving DecidableEq, Repr

/-- The `data.get("results", {})` map: region code → per-region data. -/
def ProvidersResults := List (String × RegionProviderData)
deriving DecidableEq, Repr

/-- Python `d[k]`-style first-match association lookup (dict lookup). -/
def lookupAssoc {α : Type} (k : String) : List (String × α) → Option α
  | [] => none
  | (k', v) :: rest => if k' = k then some v else lookupAssoc k rest

/-- The `for region in WATCH_REGION_PRIORITY: if region in results` loop
(lines 314-318): the first region present as a key wins. -/
def pickRegionData (results : ProvidersResults) : List String → Option RegionProviderData
  | [] => none
  | reg :: rest =>
    match lookupAssoc reg results with
    | some d => some d
    | none => pickRegionData results rest

/-- `region_data.get(key, []) or []`. -/
def catProviders (rd : RegionProviderData) (key : String) : List ProviderRec :=
  match lookupAssoc key rd with
  | none => []
  | some none => []
  | some (some l) => l

/-- The `for key in ["flatrate", "rent", "buy"]` collection loop
(lines 323-329): keep each truthy `provider_name`, in order. -/
def collectProviderNames (rd : RegionProviderData) : List String :=
  (["flatrate", "rent", "buy"].map (fun k =>
    (catProviders rd k).filterMap (fun p =>
      match p.provider_name with
      | some n => if n = "" then none else some n
      | none => none))).flatten

/-- The `unique` de-duplication loop (lines 338-341), with accumulator. -/
def dedupeKeepFirst (acc : List String) : List String → List String
  | [] => acc
  | p :: rest =>
    if p ∈ acc then dedupeKeepFirst acc rest
    else dedupeKeepFirst (acc ++ [p]) rest

/-- Pure tail of `get_streaming_providers` (lines 311-343), applied to the
decoded `results` map of a successful response.  An HTTP or network
failure returns `[]` before this point, which the caller can model by
passing an empty map. -/
def streamingFromResults (results : ProvidersResults) : List String :=
  match pickRegionData results WATCH_REGION_PRIORITY with
  | none => []
  | some regionData =>
    if regionData = [] then []
    else
      let providers := collectProviderNames regionData
      if providers = [] then []
      else
        let majors := providers.filter (fun p => p ∈ MAJOR_PROVIDERS)
        let ordered := if majors = [] then providers else majors
        dedupeKeepFirst [] ordered

/-! ## Movie records -/

/-- One crew member of `credits["crew"]`. -/
structure CrewMember where
  job : Option String
  name : Option String
deriving DecidableEq, Repr

/-- One cast member of `credits["cast"]` (the code indexes `c["name"]`). -/
structure CastMember where
  name : String
deriving DecidableEq, Repr

/-- One genre record (the code indexes `g["name"]`). -/
structure GenreRec where
  name : String
deriving DecidableEq, Repr

/-- One spoken-language record, read via `l.get("english_name")`. -/
structure LangRec where
  english_name : Option String
deriving DecidableEq, Repr

/-- One video record of `videos["results"]`. -/
structure VideoRec where
  site : Option String
  vtype : Option String
  official : Option Bool
  key : Option String
deriving DecidableEq, Repr

/-- `credits` sub-object of a movie-details response. -/
structure Credits where
  crew : List CrewMember
  cast : List CastMember
deriving DecidableEq, Repr

/-- A candidate movie as returned by TMDB discover: the discover loop
reads it only through `.get("id")`, `.get("vote_average", 0)` and
`.get("vote_count", 0)`. -/
structure Candidate where
  id : Option Int
  vote_average : Option Rat
  vote_count : Option Int
deriving DecidableEq, Repr

/-- A movie-details response (`get_movie_details`), with the fields
`build_whatsapp_message` and `main` read.  `release_dates` is
`release_dates["results"]` (`none` = missing/falsy object), `videos`
likewise `videos["results"]`. -/
structure MovieDetails where
  id : Option Int
  title : Option String
  name : Option String
  release_date : Option String
  vote_average : Option Rat
  runtime : Option Int
  overview : Option String
  genres : List GenreRec
  credits : Option Credits
  spoken_languages : List LangRec
  release_dates : Option (List RegionEntry)
  videos : Option (List VideoRec)
deriving DecidableEq, Repr

/-! ## Trailer lookup (`get_trailer_url`, lines 263-288) -/

/-- First preferred video: YouTube, type Trailer/Teaser, not explicitly
`official is False`, with a truthy key. -/
def findPreferredTrailer : List VideoRec → Option String
  | [] => none
  | v :: rest =>
    if v.site = some "YouTube" ∧ (v.vtype = some "Trailer" ∨ v.vtype = some "Teaser") ∧
       v.official ≠ some false then
      match v.key with
      | some k => if k = "" then findPreferredTrailer rest else some k
      | none => findPreferredTrailer rest
    else findPreferredTrailer rest

/-- Fallback: any YouTube video with a truthy key. -/
def findAnyYouTube : List VideoRec → Option String
  | [] => none
  | v :: rest =>
    if v.site = some "YouTube" then
      match v.key with
      | some k => if k = "" then findAnyYouTube rest else some k
      | none => findAnyYouTube rest
    else findAnyYouTube rest

/-- `get_trailer_url(movie_details)`. -/
def get_trailer_url (m : MovieDetails) : Option String :=
  let videos := m.videos.getD []
  match findPreferredTrailer videos with
  | some k => some ("https://www.youtube.com/watch?v=" ++ k)
  | none =>
    match findAnyYouTube videos with
    | some k => some ("https://www.youtube.com/watch?v=" ++ k)
    | none => none

/-! ## `truncate` (lines 346-352) -/

/-- `truncate(text, max_len=380)`.  The argument is `Option String`
because callers pass `m.get("overview") or ""`; `if not text` catches
both `None` and `""`. -/
def truncate (text : Option String) (maxLen : Int) : String :=
  match text with
  | none => ""
  | some t =>
    if t = "" then ""
    else
      let s := pyStrip t
      if (s.length : Int) ≤ maxLen then s
      else String.mk (pyRstripList (pySliceTo s.data (maxLen - 3))) ++ "..."

/-- `kept` is a proper prefix of `s` that ends inside a word: nonempty,
shorter than `s`, and neither its last character nor the character of
`s` right after it is whitespace. -/
def splitsMidWord (s kept : List Char) : Prop :=
  kept ≠ [] ∧ s.take kept.length = kept ∧ kept.length < s.length ∧
  isPySpace (s.getD kept.length ' ') = false ∧ isPySpace (kept.getLastD ' ') = false

instance (s kept : List Char) : Decidable (splitsMidWord s kept) := by
  unfold splitsMidWord; infer_instance

/-- The truncated result minus the three-character ellipsis marker. -/
def keptOf (t : String) (maxLen : Int) : List Char :=
  (truncate (some t) maxLen).data.take ((truncate (some t) maxLen).data.length - 3)

/-- The word-safety clause of C6, at one input: when the stripped text
overflows `maxLen` and a whitespace boundary exists within the allowed
prefix length `maxLen - 3`, the kept prefix must not split a word. -/
def truncateWordSafeClaim (t : String) (maxLen : Int) : Prop :=
  ((pyStripList t.data).length : Int) > maxLen →
  (∃ i, i < (maxLen - 3).toNat ∧ isPySpace ((pyStripList t.data).getD i ' ') = true) →
  ¬ splitsMidWord (pyStripList t.data) (keptOf t maxLen)

/-! ## `get_movies_for_theme`, mystery/war/bollywood branch (lines 165-179) -/

/-- `MIN_RATING` (line 15); the Python float `5.0` as a rational. -/
def MIN_RATING : Rat := 5

/-- Python dict assignment `merged[k] = m`: update the value in place if
the key exists (keeping its position), else append a new binding. -/
def pyDictUpdate : List (Option Int × Candidate) → Option Int → Candidate → List (Option Int × Candidate)
  | [], k, v => [(k, v)]
  | (k', v') :: rest, k, v =>
    if k' = k then (k', v) :: rest
    else (k', v') :: pyDictUpdate rest k v

/-- The `merged = {}; for m in results_a + results_b: merged[m["id"]] = m;
list(merged.values())` block (lines 176-179), on the concatenated list.
The dict key is the candidate's `id` field (`m["id"]`). -/
def mergeUniqueById (ms : List Candidate) : List Candidate :=
  (ms.foldl (fun d m => pyDictUpdate d m.id m) []).map Prod.snd

/-- `get_movies_for_theme("mystery_war_bollywood")` given the two
discovery results (discovery itself is network I/O, abstracted as the
two result lists). -/
def get_movies_for_theme_mystery (results_a results_b : List Candidate) : List Candidate :=
  mergeUniqueById (results_a ++ results_b)

/-- Union keeping the FIRST occurrence's record per id, in first-occurrence
order.  This follows the spec's words ("union by unique id, first
occurrence wins") and is compared against `mergeUniqueById`. -/
def unionFirstOccurrence (ms : List Candidate) : List Candidate :=
  ms.foldl (fun acc m => if m.id ∈ acc.map Candidate.id then acc else acc ++ [m]) []

/-- The ids of `l` in first-occurrence order, each kept once. -/
def firstOccKeys (l : List (Option Int)) : List (Option Int) :=
  l.foldl (fun acc k => if k ∈ acc then acc else acc ++ [k]) []

/-! ## The selection loop of `main` (lines 482-507)

`fetch` is the `get_movie_details` oracle (`none` models a failed or
falsy response, the `if not details: continue` branch).  The loop state
is `(chosen, used_ids)` exactly as in the code; chosen items are kept
paired with the candidate (`basic`) they were selected from, and the
code's `chosen` list is the second projection. -/

def selectLoop (fetch : Int → Option MovieDetails) (history : List HEntry) (cutoff : PyDate) :
    List Candidate → List (Candidate × MovieDetails) → List Int → List (Candidate × MovieDetails)
  | [], chosen, _ => chosen
  | basic :: rest, chosen, used =>
    if chosen.length ≥ 3 then chosen
    else
      match basic.id with
      | none => selectLoop fetch history cutoff rest chosen used
      | some movieId =>
        if movieId = 0 then selectLoop fetch history cutoff rest chosen used
        else if movieId ∈ used then selectLoop fetch history cutoff rest chosen used
        else if was_recently_sent movieId history cutoff then selectLoop fetch history cutoff rest chosen used
        else if basic.vote_average.getD 0 < MIN_RATING then selectLoop fetch history cutoff rest chosen used
        else
          match fetch movieId with
          | none => selectLoop fetch history cutoff rest chosen used
          | some details => selectLoop fetch history cutoff rest (chosen ++ [(basic, details)]) (used ++ [movieId])

/-- The selection loop started from the empty state, as `main` does. -/
def runSelection (fetch : Int → Option MovieDetails) (history : List HEntry) (cutoff : PyDate)
    (candidates : List Candidate) : List (Candidate × MovieDetails) :=
  selectLoop fetch history cutoff candidates [] []

/-! ## History update after selection (lines 509-516) -/

/-- The `{"id": d.get("id"), "date": today.isoformat()}` record appended
per chosen detail. -/
def mkHistoryEntry (today : PyDate) (d : MovieDetails) : HEntry :=
  ⟨d.id, some today.isoformat⟩

/-- The post-selection tail of `main`: `if not chosen: return` (no write),
else append one entry per chosen item and `save_history`.  `none` means
`save_history` is never called. -/
def mainPersistHistory (chosen : List MovieDetails) (history : List HEntry) (today : PyDate) :
    Option (List HEntry) :=
  if chosen = [] then none
  else some (chosen.foldl (fun h d => h ++ [mkHistoryEntry today d]) history)

/-- Content of the history file after the run (unchanged when nothing is
written). -/
def historyFileAfterRun (fileHistory : List HEntry) (chosen : List MovieDetails) (today : PyDate) :
    List HEntry :=
  match mainPersistHistory chosen fileHistory today with
  | none => fileHistory
  | some h => h

/-! ## Configuration pre-flight (lines 7-10, 441-445, 461-464) -/

/-- The four environment settings read at lines 7-10 (`None` = unset). -/
structure AgentConfig where
  tmdbApiKey : Option String
  ultraInstanceId : Option String
  ultraToken : Option String
  whatsappTo : Option String
deriving DecidableEq, Repr

/-- `send_whatsapp_message`'s guard (lines 442-445): the HTTP send is
attempted iff `ULTRA_INSTANCE_ID and ULTRA_TOKEN and WHATSAPP_TO` is
truthy; otherwise the message is only printed. -/
def sendWhatsappAttempted (cfg : AgentConfig) : Bool :=
  strTruthy cfg.ultraInstanceId && strTruthy cfg.ultraToken && strTruthy cfg.whatsappTo

/-- Observable I/O shape of one `main` run. -/
structure MainRunObs where
  abortedBeforeNetwork : Bool
  catalogRequested : Bool
  whatsappHttpAttempted : Bool
deriving DecidableEq, Repr

/-- Effect skeleton of `main`: lines 462-464 abort (before any network
call) exactly when `TMDB_API_KEY` is falsy; once past that check,
`get_movies_for_theme` → `discover_movies` unconditionally issues a
catalog request; the WhatsApp HTTP call happens only when something was
chosen and the UltraMsg settings are all truthy. -/
def mainRunObs (cfg : AgentConfig) (anyChosen : Bool) : MainRunObs :=
  if strTruthy cfg.tmdbApiKey = false then ⟨true, false, false⟩
  else ⟨false, true, anyChosen && sendWhatsappAttempted cfg⟩

/-! ## `load_history` (lines 45-64) over JSON/Python values -/

/-- A decoded JSON value as Python sees it (`json.load` output). -/
inductive PyVal where
  | pnull : PyVal
  | pbool : Bool → PyVal
  | pint : Int → PyVal
  | pfloat : Rat → PyVal
  | pstr : String → PyVal
  | plist : List PyVal → PyVal
  | pdict : List (String × PyVal) → PyVal

/-- Python `k in d` for a dict. -/
def hasKey (k : String) (m : List (String × PyVal)) : Bool :=
  m.any (fun p => p.1 == k)

/-- The `{"id": item, "date": "1970-01-01"}` record built for a legacy
bare-id entry. -/
def mkLegacyEntry (v : PyVal) : PyVal :=
  PyVal.pdict [("id", v), ("date", PyVal.pstr "1970-01-01")]

/-- Normalisation of one history list element, as the claim describes it:
a dict with both keys is kept as is, a bare int (Python `bool` included,
being an `int` subclass) becomes a legacy record, anything else is
dropped. -/
def normHistItem : PyVal → Option PyVal
  | PyVal.pdict m =>
    if hasKey "id" m && hasKey "date" m then some (PyVal.pdict m) else none
  | PyVal.pint n => some (mkLegacyEntry (PyVal.pint n))
  | PyVal.pbool b => some (mkLegacyEntry (PyVal.pbool b))
  | _ => none

/-- The `for item in data` normalisation loop of `load_history`
(lines 56-63), with its `normalized` accumulator; `isinstance(item, int)`
also matches Python `bool`s. -/
def normHistLoop (acc : List PyVal) : List PyVal → List PyVal
  | [] => acc
  | item :: rest =>
    match item with
    | PyVal.pdict m =>
      if hasKey "id" m && hasKey "date" m then normHistLoop (acc ++ [PyVal.pdict m]) rest
      else normHistLoop acc rest
    | PyVal.pint n => normHistLoop (acc ++ [mkLegacyEntry (PyVal.pint n)]) rest
    | PyVal.pbool b => normHistLoop (acc ++ [mkLegacyEntry (PyVal.pbool b)]) rest
    | _ => normHistLoop acc rest

/-- `load_history()`: `none` models a missing file or a `json.load`
failure (both return `[]`); a top-level non-list also yields `[]`. -/
def load_history (fileData : Option PyVal) : List PyVal :=
  match fileData with
  | none => []
  | some (PyVal.plist items) => normHistLoop [] items
  | some _ => []

/-! ## `build_whatsapp_message` (lines 355-438)

The function is embedded with two extra parameters for the effects it
performs itself: `today_pk` for the `get_today_pk()` clock read
(line 365) and `providersOf` for the `get_streaming_providers(m.get("id"))`
network call (line 403).  The source file stores its emoji prefixes as
mojibake (UTF-8 bytes decoded as cp1252); the string literals below
reproduce those exact code points via `\u` escapes. -/

/-- Sakamoto month offsets for the day-of-week computation. -/
def sakamotoT : Nat → Nat
  | 1 => 0 | 2 => 3 | 3 => 2 | 4 => 5 | 5 => 0 | 6 => 3
  | 7 => 5 | 8 => 1 | 9 => 4 | 10 => 6 | 11 => 2 | 12 => 4
  | _ => 0

/-- Gregorian day of week, 0 = Sunday. -/
def dayOfWeekSun0 (d : PyDate) : Nat :=
  let y := if d.month < 3 then d.year - 1 else d.year
  (y + y / 4 - y / 100 + y / 400 + sakamotoT d.month + d.day) % 7

/-- `strftime("%A")`. -/
def weekdayName (d : PyDate) : String :=
  ["Sunday", "Monday", "Tuesday", "Wednesday", "Thursday", "Friday",
   "Saturday"].getD (dayOfWeekSun0 d) ""

/-- `strftime("%B")`. -/
def monthName : Nat → String
  | 1 => "January" | 2 => "February" | 3 => "March" | 4 => "April"
  | 5 => "May" | 6 => "June" | 7 => "July" | 8 => "August"
  | 9 => "September" | 10 => "October" | 11 => "November" | 12 => "December"
  | _ => ""

/-- `strftime("%A, %d %B %Y")` (line 366). -/
def strftimeHeader (d : PyDate) : String :=
  weekdayName d ++ ", " ++ pad2 d.day ++ " " ++ monthName d.month ++ " " ++ toString d.year

/-- The number of tenths of `q`, rounded half-to-even (the rounding
`"%.1f"` formatting performs, with the float modelled as a rational).
Computed on `num`/`den` with integer arithmetic: with `f = ⌊10q⌋` and
remainder `r`, the fractional part of `10q` compares to `1/2` as `2r`
compares to `den`. -/
def roundTenthsHalfEven (q : Rat) : Int :=
  let n10 : Int := q.num * 10
  let d : Int := (q.den : Int)
  let f : Int := n10.fdiv d
  let r : Int := n10 - f * d
  if 2 * r < d then f
  else if d < 2 * r then f + 1
  else if f % 2 = 0 then f else f + 1

/-- Render a non-negative number of tenths as `"<int>.<digit>"`. -/
def formatTenths (n : Nat) : String :=
  toString (n / 10) ++ "." ++ toString (n % 10)

/-- Python `f"{x:.1f}"` on the rational model of the rating. -/
def formatRat1 (q : Rat) : String :=
  let n := roundTenthsHalfEven q
  if n < 0 then "-" ++ formatTenths (-n).toNat else formatTenths n.toNat

/-- `director` computation (lines 387-391): first crew member whose job
is `"Director"`. -/
def findDirector : List CrewMember → Option CrewMember
  | [] => none
  | p :: rest => if p.job = some "Director" then some p else findDirector rest

/-- The lines appended for one movie in the `for idx, m in
enumerate(movies, start=1)` body (lines 376-435), including the trailing
blank line. -/
def movieBlock (providersOf : Option Int → List String) (idx : Nat) (m : MovieDetails) :
    List String :=
  let title := pyOrStr m.title (pyOrStr m.name "Unknown title")
  let release_date := pyOrStr m.release_date ""
  let year := if release_date = "" then "N/A" else String.mk (release_date.data.take 4)
  let rating := m.vote_average.getD 0
  let runtime : Int := m.runtime.getD 0
  let overview := truncate (some (pyOrStr m.overview "")) 380
  let genres := m.genres.map (fun g => g.name)
  let genre_str := if genres = [] then "N/A" else joinComma genres
  let crew := match m.credits with | none => ([] : List CrewMember) | some c => c.crew
  let director :=
    match findDirector crew with
    | none => "N/A"
    | some p => match p.name with | none => "None" | some n => n
  let cast_names :=
    ((match m.credits with | none => ([] : List CastMember) | some c => c.cast).take 3).map
      (fun (c : CastMember) => c.name)
  let cast_str := if cast_names = [] then "N/A" else joinComma cast_names
  let lang_names := m.spoken_languages.filterMap (fun l =>
    match l.english_name with
    | some n => if n = "" then none else some n
    | none => none)
  let langs_str := if lang_names = [] then "N/A" else joinComma lang_names
  let age_rating := get_age_rating_from_release_dates m.release_dates
  let trailer_url := get_trailer_url m
  let providers := providersOf m.id
  let streaming_str :=
    if providers = [] then "Not available on major platforms (for your region)"
    else joinComma providers
  let infoBase := "   â­ " ++ formatRat1 rating ++ " | ðŸ”ž " ++ age_rating
  let infoLine :=
    if runtime ≠ 0 then
      let hours := runtime.fdiv 60
      let mins := runtime.emod 60
      if hours > 0 then infoBase ++ " | â± " ++ toString hours ++ "h " ++ toString mins ++ "m"
      else infoBase ++ " | â± " ++ toString mins ++ "m"
    else infoBase
  [toString idx ++ ") ðŸŽ¥ *" ++ title ++ "* (" ++ year ++ ")",
   infoLine,
   "   ðŸŽ­ Genres: " ++ genre_str,
   "   ðŸŒ Languages: " ++ langs_str,
   "   ðŸŽ¬ Director: " ++ director,
   "   â­ Cast: " ++ cast_str,
   "   ðŸ“º Streaming: " ++ streaming_str]
  ++ (match trailer_url with
      | some u => ["   â–¶ï¸ Trailer: " ++ u]
      | none => ["   â–¶ï¸ Trailer: Not available"])
  ++ (if overview = "" then [] else ["   ðŸ“ Summary: " ++ overview])
  ++ [""]

/-- `for idx, m in enumerate(movies, start=1)` (line 376). -/
def movieBlocks (providersOf : Option Int → List String) (idx : Nat) :
    List MovieDetails → List String
  | [] => []
  | m :: rest => movieBlock providersOf idx m ++ movieBlocks providersOf (idx + 1) rest

/-- `build_whatsapp_message(movies, theme_label)`, with the clock read and
the per-movie provider lookup passed in explicitly. -/
def build_whatsapp_message (movies : List MovieDetails) (theme_label : String)
    (today_pk : PyDate) (providersOf : Option Int → List String) : String :=
  let date_str := strftimeHeader today_pk
  let header :=
    ["ðŸŽ¬ *Daily Movie Picks*",
     "ðŸ“… " ++ date_str,
     "ðŸŽ­ Theme: " ++ theme_label,
     "â”€â”€â”€â”€â”€â”€â”€â”€â”€â”€â”€â”€â”€â”€â”€â”€â”€â”€â”€â”€",
     "Here are 3 picks for tonight (rating â‰¥ 5.0):",
     ""]
  joinNewline (header ++ movieBlocks providersOf 1 movies ++
    ["Enjoy your movies! ðŸ¿"])

/-! # Theorems -/

/-! ## C2: `was_recently_sent` characterization -/

/-- A history entry whose stored date string is the legacy `"1970-01-01"`
parses to the epoch. -/
theorem parseEntryDate_legacy (e : HEntry) (h : e.date = some "1970-01-01") :
    parseEntryDate e = epochDate := by
  unfold parseEntryDate
  rw [h]
  decide

/-- `was_recently_sent` is the existential scan it implements. -/
theorem was_recently_sent_iff (movieId : Int) (history : List HEntry) (cutoff : PyDate) :
    was_recently_sent movieId history cutoff = true ↔
      ∃ e ∈ history, e.id = some movieId ∧ cutoff.leb (parseEntryDate e) = true := by
  induction history with
  | nil => simp [was_recently_sent]
  | cons e rest ih =>
    simp only [was_recently_sent]
    by_cases h1 : e.id = some movieId
    · by_cases h2 : cutoff.leb (parseEntryDate e) = true
      · simp [h1, h2]
      · simp only [h1, if_true, h2]
        simp only [Bool.not_eq_true] at h2
        simp [h2, ih, h1]
    · simp [h1, ih]

/-- If every entry for the queried id is a legacy (epoch-dated) entry and
the cutoff is strictly after the epoch, the scan returns `false`. -/
theorem was_recently_sent_all_legacy (movieId : Int) (history : List HEntry) (cutoff : PyDate)
    (hleg : ∀ e ∈ history, e.id = some movieId → e.date = some "1970-01-01")
    (hcut : epochDate.ltb cutoff = true) :
    was_recently_sent movieId history cutoff = false := by
  cases hb : was_recently_sent movieId history cutoff with
  | false => rfl
  | true =>
    exfalso
    rcases (was_recently_sent_iff movieId history cutoff).1 hb with ⟨e, he, hid, hdate⟩
    rw [parseEntryDate_legacy e (hleg e he hid)] at hdate
    unfold PyDate.ltb at hcut
    rw [hdate] at hcut
    simp at hcut

/-- C2: `was_recently_sent(movie_id, history, cutoff_date)` returns true
iff some history entry with that id has a (defaulted, fallback-parsed)
date `≥ cutoff_date`, where an unparseable or missing date is treated as
1970-01-01 (`parseEntryDate`); consequently entries carrying the legacy
date `"1970-01-01"` (the normalization `load_history` gives bare ids)
never make it return true for any cutoff strictly after the epoch. -/
theorem was_recently_sent_characterization :
    (∀ (movieId : Int) (history : List HEntry) (cutoff : PyDate),
       was_recently_sent movieId history cutoff = true ↔
         ∃ e ∈ history, e.id = some movieId ∧ cutoff.leb (parseEntryDate e) = true)
    ∧ (∀ (movieId : Int) (history : List HEntry) (cutoff : PyDate),
       (∀ e ∈ history, e.id = some movieId → e.date = some "1970-01-01") →
       epochDate.ltb cutoff = true →
       was_recently_sent movieId history cutoff = false) :=
  ⟨was_recently_sent_iff, fun movieId history cutoff hleg hcut =>
    was_recently_sent_all_legacy movieId history cutoff hleg hcut⟩

/-- Witness for C2 at concrete inputs: an entry dated 2025-06-01 with a
cutoff of 2025-01-01 triggers the scan, and a pure-legacy history with a
post-epoch cutoff does not. -/
theorem was_recently_sent_characterization_witness :
    (was_recently_sent 5 [⟨some 5, some "2025-06-01"⟩] ⟨2025, 1, 1⟩ = true)
    ∧ (was_recently_sent 7 [⟨some 7, some "1970-01-01"⟩] ⟨2025, 1, 1⟩ = false) :=
  ⟨(was_recently_sent_characterization.1 5 [⟨some 5, some "2025-06-01"⟩] ⟨2025, 1, 1⟩).2
      ⟨⟨some 5, some "2025-06-01"⟩, by simp, by decide⟩,
   was_recently_sent_characterization.2 7 [⟨some 7, some "1970-01-01"⟩] ⟨2025, 1, 1⟩
      (by intro e he hid; simp at he; rw [he]) (by decide)⟩

/-! ## C8: certification bucket mapping -/

/-- C8: `map_certification_to_age_bucket` is a pure total function into
the five buckets, with the claimed example values; `"ALL 12"` (matching
both the all-ages and 13-like groups) lands in "All ages" and `"16/12"`
(matching both the 13-like and 16-like groups) lands in "13+",
witnessing the fixed group order all-ages → 13 → 16 → 18 → fallback. -/
theorem certification_bucket_examples :
    map_certification_to_age_bucket (some "PG-13") = "13+"
    ∧ map_certification_to_age_bucket (some "R") = "16+"
    ∧ map_certification_to_age_bucket (some "NC-17") = "18+"
    ∧ map_certification_to_age_bucket (some "") = "Not rated"
    ∧ map_certification_to_age_bucket none = "Not rated"
    ∧ map_certification_to_age_bucket (some "G") = "All ages"
    ∧ map_certification_to_age_bucket (some "ALL 12") = "All ages"
    ∧ map_certification_to_age_bucket (some "16/12") = "13+"
    ∧ (∀ cert, map_certification_to_age_bucket cert ∈
        (["All ages", "13+", "16+", "18+", "Not rated"] : List String)) := by
  refine ⟨by decide, by decide, by decide, by decide, by decide, by decide, by decide, by decide, ?_⟩
  intro cert
  unfold map_certification_to_age_bucket
  cases cert with
  | none => simp
  | some c =>
    dsimp only
    split_ifs <;> simp

/-! ## C6: `truncate` -/

/-- C6 counterexample: `truncate("abc defghi", 9)` yields `"abc de..."`,
cutting the word "defghi" in the middle although the whitespace boundary
at index 3 lies within the allowed length 6; the word-safety clause of
the claim is false at this input. -/
theorem truncate_splits_mid_word :
    truncate (some "abc defghi") 9 = "abc de..."
    ∧ ¬ truncateWordSafeClaim "abc defghi" 9 := by
  constructor
  · rfl
  · intro h
    exact h (by decide) ⟨3, by decide⟩ (by decide)

/-- `dropWhile` never lengthens a list. -/
theorem dropWhile_length_le (p : Char → Bool) : ∀ l : List Char, (l.dropWhile p).length ≤ l.length := by
  intro l
  induction l with
  | nil => simp [List.dropWhile]
  | cons c rest ih =>
    cases hp : p c
    · simp [List.dropWhile, hp]
    · simp only [List.dropWhile, hp, List.length_cons]
      exact Nat.le_succ_of_le ih

/-- Length of `pyRstripList` never exceeds the input's. -/
theorem pyRstripList_length_le (l : List Char) : (pyRstripList l).length ≤ l.length := by
  unfold pyRstripList
  calc (((l.reverse.dropWhile isPySpace)).reverse).length
      = (l.reverse.dropWhile isPySpace).length := by rw [List.length_reverse]
    _ ≤ l.reverse.length := dropWhile_length_le _ _
    _ = l.length := List.length_reverse l

/-- C6 amended: for `maxLen ≥ 3`, text whose stripped form fits within
`maxLen` is returned stripped and unmarked; overflowing text is cut at
exactly `maxLen - 3` characters (not at a word boundary), trailing
whitespace of the cut is removed, the ellipsis marker is appended, and
the result never exceeds `maxLen` characters. -/
theorem truncate_behavior :
    ∀ (t : String) (maxLen : Int), 3 ≤ maxLen →
      (((pyStrip t).length : Int) ≤ maxLen → truncate (some t) maxLen = pyStrip t)
      ∧ (((pyStrip t).length : Int) > maxLen →
          truncate (some t) maxLen =
            String.mk (pyRstripList ((pyStrip t).data.take (maxLen - 3).toNat)) ++ "..."
          ∧ ((truncate (some t) maxLen).length : Int) ≤ maxLen) := by
  intro t maxLen h3
  by_cases ht : t = ""
  · subst ht
    constructor
    · intro _; rfl
    · intro hgt
      exfalso
      have : ((pyStrip "").length : Int) = 0 := by decide
      omega
  · constructor
    · intro hle
      unfold truncate
      simp only [ht, if_false]
      rw [if_pos hle]
    · intro hgt
      have hres : truncate (some t) maxLen =
          String.mk (pyRstripList ((pyStrip t).data.take (maxLen - 3).toNat)) ++ "..." := by
        unfold truncate
        simp only [ht, if_false]
        rw [if_neg (by omega)]
        unfold pySliceTo
        rw [if_pos (by omega)]
      refine ⟨hres, ?_⟩
      rw [hres]
      have hlen : (String.mk (pyRstripList ((pyStrip t).data.take (maxLen - 3).toNat)) ++ "...").length
          = (pyRstripList ((pyStrip t).data.take (maxLen - 3).toNat)).length + 3 := by
        rw [String.length_append]
        rfl
      rw [hlen]
      have h1 := pyRstripList_length_le ((pyStrip t).data.take (maxLen - 3).toNat)
      have h2 : ((pyStrip t).data.take (maxLen - 3).toNat).length ≤ (maxLen - 3).toNat := by
        rw [List.length_take]
        exact min_le_left _ _
      omega

/-- Witness for C6 amended at concrete inputs: a short text is returned
stripped, and `truncate("abcd efgh", 8)` is the rstripped 5-character cut
plus the marker, within the length bound. -/
theorem truncate_behavior_witness :
    (truncate (some "  hi  ") 380 = pyStrip "  hi  ")
    ∧ (truncate (some "abcd efgh") 8 =
        String.mk (pyRstripList ((pyStrip "abcd efgh").data.take (8 - 3 : Int).toNat)) ++ "..."
      ∧ ((truncate (some "abcd efgh") 8).length : Int) ≤ 8) :=
  ⟨(truncate_behavior "  hi  " 380 (by decide)).1 (by decide),
   (truncate_behavior "abcd efgh" 8 (by decide)).2 (by decide)⟩

/-! ## C7: configuration pre-flight -/

/-- C7 counterexample: with the TMDB key set but every UltraMsg setting
absent, the run does not abort pre-flight and a catalog request is still
issued, refuting "absence of any required setting aborts before any
network call". -/
theorem missing_ultramsg_does_not_abort :
    (mainRunObs ⟨some "k", none, none, none⟩ true).catalogRequested = true
    ∧ (mainRunObs ⟨some "k", none, none, none⟩ true).abortedBeforeNetwork = false
    ∧ (⟨some "k", none, none, none⟩ : AgentConfig).ultraToken = none := by
  decide

/-- C7 amended: only the TMDB API key is checked pre-flight — the run
aborts before any network call iff it is falsy, and a catalog request is
issued iff it is truthy; the WhatsApp HTTP call is only ever attempted
when the three UltraMsg settings are all truthy (otherwise the send step
is skipped, without aborting the run). -/
theorem preflight_only_tmdb_gates :
    ∀ (cfg : AgentConfig) (anyChosen : Bool),
      ((mainRunObs cfg anyChosen).abortedBeforeNetwork = !(strTruthy cfg.tmdbApiKey))
      ∧ ((mainRunObs cfg anyChosen).catalogRequested = strTruthy cfg.tmdbApiKey)
      ∧ ((mainRunObs cfg anyChosen).whatsappHttpAttempted = true →
          sendWhatsappAttempted cfg = true ∧ anyChosen = true) := by
  intro cfg b
  cases h : strTruthy cfg.tmdbApiKey with
  | false => simp [mainRunObs, h]
  | true =>
    refine ⟨by simp [mainRunObs, h], by simp [mainRunObs, h], ?_⟩
    intro hh
    simp only [mainRunObs, h, Bool.true_eq_false, if_false, Bool.and_eq_true] at hh
    exact ⟨hh.2, hh.1⟩

/-- Witness for C7 amended with a fully-populated configuration. -/
theorem preflight_only_tmdb_gates_witness :
    sendWhatsappAttempted ⟨some "k", some "i", some "t", some "w"⟩ = true ∧ true = true :=
  (preflight_only_tmdb_gates ⟨some "k", some "i", some "t", some "w"⟩ true).2.2 (by decide)

/-! ## C5: region-priority scans -/

/-- The certification region scan either finds nothing anywhere, or its
result is the value of the first region (in priority order) with a
non-empty certification, every earlier region having none. -/
theorem scanCertRegions_cases (results : List RegionEntry) :
    ∀ prio : List String,
      (scanCertRegions results prio = none ∧ ∀ r ∈ prio, certFromEntries r results = none)
      ∨ ∃ (j : Nat) (r : String), prio[j]? = some r ∧ certFromEntries r results ≠ none ∧
          scanCertRegions results prio = certFromEntries r results ∧
          ∀ i : Nat, i < j → ∀ rHi, prio[i]? = some rHi → certFromEntries rHi results = none := by
  intro prio
  induction prio with
  | nil => exact Or.inl ⟨rfl, by simp⟩
  | cons reg rest ih =>
    cases hc : certFromEntries reg results with
    | some c =>
      refine Or.inr ⟨0, reg, by simp, by simp [hc], by simp [scanCertRegions, hc], ?_⟩
      intro i hi
      exact absurd hi (Nat.not_lt_zero i)
    | none =>
      rcases ih with ⟨hnone, hall⟩ | ⟨j, r, hj, hne, heq, hhi⟩
      · refine Or.inl ⟨by simp [scanCertRegions, hc, hnone], ?_⟩
        intro r hr
        rcases List.mem_cons.mp hr with h | h
        · exact h ▸ hc
        · exact hall r h
      · refine Or.inr ⟨j + 1, r, by simpa using hj, hne, by simp [scanCertRegions, hc, heq], ?_⟩
        intro i hi rHi hgi
        cases i with
        | zero =>
          simp only [List.getElem?_cons_zero, Option.some.injEq] at hgi
          exact hgi ▸ hc
        | succ i' =>
          exact hhi i' (by omega) rHi (by simpa using hgi)

/-- The provider region pick either finds no listed region, or returns
the data of the first region (in priority order) present in the response
map, every earlier region being absent. -/
theorem pickRegionData_cases (presults : ProvidersResults) :
    ∀ prio : List String,
      (pickRegionData presults prio = none ∧ ∀ r ∈ prio, lookupAssoc r presults = none)
      ∨ ∃ (j : Nat) (r : String), prio[j]? = some r ∧ lookupAssoc r presults ≠ none ∧
          pickRegionData presults prio = lookupAssoc r presults ∧
          ∀ i : Nat, i < j → ∀ rHi, prio[i]? = some rHi → lookupAssoc rHi presults = none := by
  intro prio
  induction prio with
  | nil => exact Or.inl ⟨rfl, by simp⟩
  | cons reg rest ih =>
    cases hc : lookupAssoc reg presults with
    | some d =>
      refine Or.inr ⟨0, reg, by simp, by simp [hc], by simp [pickRegionData, hc], ?_⟩
      intro i hi
      exact absurd hi (Nat.not_lt_zero i)
    | none =>
      rcases ih with ⟨hnone, hall⟩ | ⟨j, r, hj, hne, heq, hhi⟩
      · refine Or.inl ⟨by simp [pickRegionData, hc, hnone], ?_⟩
        intro r hr
        rcases List.mem_cons.mp hr with h | h
        · exact h ▸ hc
        · exact hall r h
      · refine Or.inr ⟨j + 1, r, by simpa using hj, hne, by simp [pickRegionData, hc, heq], ?_⟩
        intro i hi rHi hgi
        cases i with
        | zero =>
          simp only [List.getElem?_cons_zero, Option.some.injEq] at hgi
          exact hgi ▸ hc
        | succ i' =>
          exact hhi i' (by omega) rHi (by simpa using hgi)

/-- C5: region-priority scans stop at the first region with data.  If the
certification scan of `get_age_rating_from_release_dates` settles on a
certification, that value comes from a region all of whose
higher-priority regions in `CERT_REGIONS_PRIORITY` have no non-empty
certification; if `get_streaming_providers`'s region pick settles on a
region's data, every higher-priority region in `WATCH_REGION_PRIORITY`
is absent from the response map (hence yields no provider data at all). -/
theorem region_priority_first_nonempty :
    (∀ (results : List RegionEntry) (c : String),
       scanCertRegions results CERT_REGIONS_PRIORITY = some c →
       ∃ (j : Nat) (r : String), CERT_REGIONS_PRIORITY[j]? = some r ∧ certFromEntries r results = some c ∧
         ∀ i : Nat, i < j → ∀ rHi, CERT_REGIONS_PRIORITY[i]? = some rHi →
           certFromEntries rHi results = none)
    ∧ (∀ (presults : ProvidersResults) (rd : RegionProviderData),
       pickRegionData presults WATCH_REGION_PRIORITY = some rd →
       ∃ (j : Nat) (r : String), WATCH_REGION_PRIORITY[j]? = some r ∧ lookupAssoc r presults = some rd ∧
         ∀ i : Nat, i < j → ∀ rHi, WATCH_REGION_PRIORITY[i]? = some rHi →
           lookupAssoc rHi presults = none) := by
  constructor
  · intro results c hc
    rcases scanCertRegions_cases results CERT_REGIONS_PRIORITY with ⟨h1, _⟩ | ⟨j, r, hj, _, heq, hhi⟩
    · rw [h1] at hc; exact absurd hc (by simp)
    · rw [heq] at hc
      exact ⟨j, r, hj, hc, hhi⟩
  · intro presults rd hrd
    rcases pickRegionData_cases presults WATCH_REGION_PRIORITY with ⟨h1, _⟩ | ⟨j, r, hj, _, heq, hhi⟩
    · rw [h1] at hrd; exact absurd hrd (by simp)
    · rw [heq] at hrd
      exact ⟨j, r, hj, hrd, hhi⟩

/-- Witness for C5: a release-dates list carrying only a US certification
(IN has none), and a provider map listing only IN (PK absent). -/
theorem region_priority_first_nonempty_witness :
    (∃ (j : Nat) (r : String), CERT_REGIONS_PRIORITY[j]? = some r ∧
       certFromEntries r [⟨some "US", [⟨some "PG-13"⟩]⟩] = some "PG-13" ∧
       ∀ i : Nat, i < j → ∀ rHi, CERT_REGIONS_PRIORITY[i]? = some rHi →
         certFromEntries rHi [⟨some "US", [⟨some "PG-13"⟩]⟩] = none)
    ∧ (∃ (j : Nat) (r : String), WATCH_REGION_PRIORITY[j]? = some r ∧
       lookupAssoc r [("IN", ([] : RegionProviderData))] = some ([] : RegionProviderData) ∧
       ∀ i : Nat, i < j → ∀ rHi, WATCH_REGION_PRIORITY[i]? = some rHi →
         lookupAssoc rHi [("IN", ([] : RegionProviderData))] = none) :=
  ⟨region_priority_first_nonempty.1 [⟨some "US", [⟨some "PG-13"⟩]⟩] "PG-13" (by decide),
   region_priority_first_nonempty.2 [("IN", ([] : RegionProviderData))] ([] : RegionProviderData)
     (by decide)⟩

/-! ## C1: selection postcondition -/

/-- Invariant of the selection loop: from a state whose chosen pairs are
keyed exactly by `used` (no duplicates, at most 3 entries, all passing
the rating floor), any run of the loop ends in a state of the same
shape. -/
theorem selectLoop_invariant (fetch : Int → Option MovieDetails) (history : List HEntry)
    (cutoff : PyDate) :
    ∀ (cands : List Candidate) (chosen : List (Candidate × MovieDetails)) (used : List Int),
      chosen.map (fun p => p.1.id) = used.map (fun i => (some i : Option Int)) →
      used.Nodup →
      chosen.length ≤ 3 →
      (∀ p ∈ chosen, MIN_RATING ≤ p.1.vote_average.getD 0) →
      ∃ usedF : List Int,
        (selectLoop fetch history cutoff cands chosen used).map (fun p => p.1.id) =
          usedF.map (fun i => (some i : Option Int))
        ∧ usedF.Nodup
        ∧ (selectLoop fetch history cutoff cands chosen used).length ≤ 3
        ∧ ∀ p ∈ selectLoop fetch history cutoff cands chosen used,
            MIN_RATING ≤ p.1.vote_average.getD 0 := by
  intro cands
  induction cands with
  | nil =>
    intro chosen used hmap hnodup hlen hrat
    exact ⟨used, hmap, hnodup, hlen, hrat⟩
  | cons basic rest ih =>
    intro chosen used hmap hnodup hlen hrat
    by_cases hfull : chosen.length ≥ 3
    · simp only [selectLoop, if_pos hfull]
      exact ⟨used, hmap, hnodup, hlen, hrat⟩
    · simp only [selectLoop, if_neg hfull]
      cases hid : basic.id with
      | none => exact ih chosen used hmap hnodup hlen hrat
      | some movieId =>
        by_cases h0 : movieId = 0
        · simp only [if_pos h0]
          exact ih chosen used hmap hnodup hlen hrat
        · simp only [if_neg h0]
          by_cases hmem : movieId ∈ used
          · simp only [if_pos hmem]
            exact ih chosen used hmap hnodup hlen hrat
          · simp only [if_neg hmem]
            by_cases hrec : was_recently_sent movieId history cutoff
            · simp only [if_pos hrec]
              exact ih chosen used hmap hnodup hlen hrat
            · simp only [if_neg hrec]
              by_cases hlow : basic.vote_average.getD 0 < MIN_RATING
              · simp only [if_pos hlow]
                exact ih chosen used hmap hnodup hlen hrat
              · simp only [if_neg hlow]
                cases hf : fetch movieId with
                | none => exact ih chosen used hmap hnodup hlen hrat
                | some details =>
                  refine ih (chosen ++ [(basic, details)]) (used ++ [movieId]) ?_ ?_ ?_ ?_
                  · simp [hmap, hid]
                  · simp [List.nodup_append, hnodup, hmem]
                  · simp only [List.length_append, List.length_singleton]
                    omega
                  · intro p hp
                    rcases List.mem_append.mp hp with h | h
                    · exact hrat p h
                    · rcases List.mem_singleton.mp h with rfl
                      exact le_of_not_lt hlow

/-- C1: for every details oracle, history, cutoff and candidate list, the
selection loop of `main` chooses pairwise-distinct movie ids, at most
`N = 3` items, and only candidates whose `vote_average` at the moment of
selection is at least `MIN_RATING = 5.0`. -/
theorem selection_postcondition :
    ∀ (fetch : Int → Option MovieDetails) (history : List HEntry) (cutoff : PyDate)
      (candidates : List Candidate),
      ((runSelection fetch history cutoff candidates).map (fun p => p.1.id)).Nodup
      ∧ (runSelection fetch history cutoff candidates).length ≤ 3
      ∧ ∀ p ∈ runSelection fetch history cutoff candidates,
          MIN_RATING ≤ p.1.vote_average.getD 0 := by
  intro fetch history cutoff candidates
  obtain ⟨usedF, hmap, hnodup, hlen, hrat⟩ :=
    selectLoop_invariant fetch history cutoff candidates [] [] (by simp) (by simp) (by simp)
      (by simp)
  refine ⟨?_, hlen, hrat⟩
  unfold runSelection
  rw [hmap]
  exact hnodup.map (fun a b hab => Option.some.inj hab)

/-- Witness for C1 at a concrete run: one eligible candidate, an oracle
that always answers, empty history. -/
theorem selection_postcondition_witness :
    ((runSelection (fun _ => some ⟨some 1, none, none, none, none, none, none, [], none, [], none, none⟩)
        [] epochDate [⟨some 1, some 7, some 10⟩]).map (fun p => p.1.id)).Nodup
    ∧ (runSelection (fun _ => some ⟨some 1, none, none, none, none, none, none, [], none, [], none, none⟩)
        [] epochDate [⟨some 1, some 7, some 10⟩]).length ≤ 3
    ∧ ∀ p ∈ runSelection (fun _ => some ⟨some 1, none, none, none, none, none, none, [], none, [], none, none⟩)
        [] epochDate [⟨some 1, some 7, some 10⟩],
        MIN_RATING ≤ p.1.vote_average.getD 0 :=
  selection_postcondition
    (fun _ => some ⟨some 1, none, none, none, none, none, none, [], none, [], none, none⟩)
    [] epochDate [⟨some 1, some 7, some 10⟩]

/-! ## C3: history update gating -/

/-- The append loop of lines 514-515 appends exactly one entry per chosen
item, in order. -/
theorem history_append_loop (today : PyDate) :
    ∀ (chosen : List MovieDetails) (history : List HEntry),
      chosen.foldl (fun h d => h ++ [mkHistoryEntry today d]) history
        = history ++ chosen.map (mkHistoryEntry today) := by
  intro chosen
  induction chosen with
  | nil => intro history; simp
  | cons d rest ih => intro history; simp [ih]

/-- C3: `main` persists history only for a non-empty selection.  With no
chosen item, `save_history` is never called (`mainPersistHistory` is
`none`) and the stored file is unchanged; with chosen items, the
persisted content is exactly the loaded history with one
`{id, date: today}` entry appended per chosen item — pre-existing
entries are neither removed nor altered. -/
theorem history_update_gated :
    ∀ (chosen : List MovieDetails) (fileHistory : List HEntry) (today : PyDate),
      (chosen = [] →
        mainPersistHistory chosen fileHistory today = none
        ∧ historyFileAfterRun fileHistory chosen today = fileHistory)
      ∧ (chosen ≠ [] →
        mainPersistHistory chosen fileHistory today =
          some (fileHistory ++ chosen.map (mkHistoryEntry today))
        ∧ historyFileAfterRun fileHistory chosen today =
          fileHistory ++ chosen.map (mkHistoryEntry today)) := by
  intro chosen fileHistory today
  constructor
  · intro h
    subst h
    exact ⟨rfl, rfl⟩
  · intro h
    have hm : mainPersistHistory chosen fileHistory today =
        some (fileHistory ++ chosen.map (mkHistoryEntry today)) := by
      unfold mainPersistHistory
      rw [if_neg h, history_append_loop]
    refine ⟨hm, ?_⟩
    unfold historyFileAfterRun
    rw [hm]

/-- Witness for C3: the empty selection leaves the file alone; a
one-element selection appends exactly its entry. -/
theorem history_update_gated_witness :
    (mainPersistHistory [] [] epochDate = none ∧ historyFileAfterRun [] [] epochDate = [])
    ∧ (mainPersistHistory [⟨some 1, none, none, none, none, none, none, [], none, [], none, none⟩]
         [] epochDate =
       some ([] ++ [(⟨some 1, none, none, none, none, none, none, [], none, [], none, none⟩ : MovieDetails)].map (mkHistoryEntry epochDate))
      ∧ historyFileAfterRun []
         [⟨some 1, none, none, none, none, none, none, [], none, [], none, none⟩] epochDate =
        [] ++ [(⟨some 1, none, none, none, none, none, none, [], none, [], none, none⟩ : MovieDetails)].map (mkHistoryEntry epochDate)) :=
  ⟨(history_update_gated [] [] epochDate).1 rfl,
   (history_update_gated [⟨some 1, none, none, none, none, none, none, [], none, [], none, none⟩]
      [] epochDate).2 (by simp)⟩

/-! ## C10: `load_history` canonical shape -/

/-- The normalisation loop is the `filterMap` of the per-item rule. -/
theorem normHistLoop_eq_filterMap :
    ∀ (items : List PyVal) (acc : List PyVal),
      normHistLoop acc items = acc ++ items.filterMap normHistItem := by
  intro items
  induction items with
  | nil => intro acc; simp [normHistLoop]
  | cons item rest ih =>
    intro acc
    cases item with
    | pdict m =>
      by_cases h : (hasKey "id" m && hasKey "date" m) = true
      · simp [normHistLoop, normHistItem, h, ih]
      · simp [normHistLoop, normHistItem, h, ih]
    | pint n => simp [normHistLoop, normHistItem, ih]
    | pbool b => simp [normHistLoop, normHistItem, ih]
    | pnull => simp [normHistLoop, normHistItem, ih]
    | pfloat q => simp [normHistLoop, normHistItem, ih]
    | pstr s => simp [normHistLoop, normHistItem, ih]
    | plist l => simp [normHistLoop, normHistItem, ih]

/-- C10: whatever the file held, every element `load_history` returns is
a dict carrying both an `"id"` and a `"date"` key; on a list input the
result is exactly the element-wise normalisation that keeps well-formed
dicts, converts bare ints (and bools, `int` subclasses) to records dated
`"1970-01-01"`, and silently drops every other shape. -/
theorem load_history_canonical_shape :
    (∀ (fileData : Option PyVal) (e : PyVal), e ∈ load_history fileData →
       ∃ m, e = PyVal.pdict m ∧ hasKey "id" m = true ∧ hasKey "date" m = true)
    ∧ (∀ items : List PyVal,
        load_history (some (PyVal.plist items)) = items.filterMap normHistItem) := by
  have h2 : ∀ items : List PyVal,
      load_history (some (PyVal.plist items)) = items.filterMap normHistItem := by
    intro items
    simp [load_history, normHistLoop_eq_filterMap]
  refine ⟨?_, h2⟩
  intro fileData e he
  cases fileData with
  | none => simp [load_history] at he
  | some v =>
    cases v with
    | plist items =>
      rw [h2 items] at he
      rcases List.mem_filterMap.mp he with ⟨item, _, hitem⟩
      cases item with
      | pdict m =>
        by_cases hk : (hasKey "id" m && hasKey "date" m) = true
        · simp only [normHistItem, hk, if_true, Option.some.injEq] at hitem
          rw [Bool.and_eq_true] at hk
          rcases hk with ⟨hk1, hk2⟩
          exact ⟨m, hitem.symm, hk1, hk2⟩
        · simp [normHistItem, hk] at hitem
      | pint n =>
        simp only [normHistItem, Option.some.injEq] at hitem
        exact ⟨[("id", PyVal.pint n), ("date", PyVal.pstr "1970-01-01")],
          hitem.symm, by simp [hasKey], by simp [hasKey]⟩
      | pbool b =>
        simp only [normHistItem, Option.some.injEq] at hitem
        exact ⟨[("id", PyVal.pbool b), ("date", PyVal.pstr "1970-01-01")],
          hitem.symm, by simp [hasKey], by simp [hasKey]⟩
      | pnull => simp [normHistItem] at hitem
      | pfloat q => simp [normHistItem] at hitem
      | pstr s => simp [normHistItem] at hitem
      | plist l => simp [normHistItem] at hitem
    | pnull => simp [load_history] at he
    | pbool b => simp [load_history] at he
    | pint n => simp [load_history] at he
    | pfloat q => simp [load_history] at he
    | pstr s => simp [load_history] at he
    | pdict m => simp [load_history] at he

/-- Witness for C10: a legacy bare id `7` is normalised into a dated
record, and a mixed list keeps only its well-formed entries. -/
theorem load_history_canonical_shape_witness :
    (∃ m, mkLegacyEntry (PyVal.pint 7) = PyVal.pdict m
       ∧ hasKey "id" m = true ∧ hasKey "date" m = true)
    ∧ load_history (some (PyVal.plist [PyVal.pstr "x", PyVal.pint 3])) =
        [PyVal.pstr "x", PyVal.pint 3].filterMap normHistItem :=
  ⟨load_history_canonical_shape.1 (some (PyVal.plist [PyVal.pint 7]))
      (mkLegacyEntry (PyVal.pint 7))
      (by simp [load_history, normHistLoop, mkLegacyEntry]),
   load_history_canonical_shape.2 [PyVal.pstr "x", PyVal.pint 3]⟩

/-! ## C4: union-by-id merge of the mystery/war/bollywood theme -/

/-- Keys after a dict assignment: unchanged when the key exists, appended
otherwise. -/
theorem pyDictUpdate_keys (k : Option Int) (v : Candidate) :
    ∀ d : List (Option Int × Candidate),
      (pyDictUpdate d k v).map Prod.fst =
        if k ∈ d.map Prod.fst then d.map Prod.fst else d.map Prod.fst ++ [k] := by
  intro d
  induction d with
  | nil => simp [pyDictUpdate]
  | cons p rest ih =>
    obtain ⟨k', v'⟩ := p
    by_cases h : k' = k
    · subst h
      simp [pyDictUpdate]
    · simp only [pyDictUpdate, if_neg h, List.map_cons]
      rw [ih]
      by_cases h2 : k ∈ rest.map Prod.fst
      · rw [if_pos h2, if_pos (List.mem_cons_of_mem _ h2)]
      · have hcond : ¬ (k ∈ k' :: rest.map Prod.fst) := by
          simp only [List.mem_cons]
          push_neg
          exact ⟨fun hh => h hh.symm, h2⟩
        rw [if_neg h2, if_neg hcond]
        simp

/-- Membership after a dict assignment, when the stored keys are
duplicate-free: an element is the new binding or an untouched old one. -/
theorem pyDictUpdate_mem (k : Option Int) (v : Candidate) :
    ∀ d : List (Option Int × Candidate), (d.map Prod.fst).Nodup →
      ∀ e ∈ pyDictUpdate d k v, e = (k, v) ∨ (e ∈ d ∧ e.1 ≠ k) := by
  intro d
  induction d with
  | nil =>
    intro _ e he
    simp [pyDictUpdate] at he
    exact Or.inl he
  | cons p rest ih =>
    obtain ⟨k', v'⟩ := p
    intro hnd e he
    simp only [List.map_cons, List.nodup_cons] at hnd
    by_cases h : k' = k
    · subst h
      simp only [pyDictUpdate, if_pos rfl] at he
      rcases List.mem_cons.mp he with he | he
      · exact Or.inl (by rw [he])
      · refine Or.inr ⟨List.mem_cons_of_mem _ he, ?_⟩
        intro hek
        exact hnd.1 (hek ▸ List.mem_map_of_mem Prod.fst he)
    · simp only [pyDictUpdate, if_neg h] at he
      rcases List.mem_cons.mp he with he | he
      · refine Or.inr ⟨by rw [he]; exact List.mem_cons_self _ _, ?_⟩
        rw [he]
        exact fun hh => h hh
      · rcases ih hnd.2 e he with h1 | ⟨hm, hne⟩
        · exact Or.inl h1
        · exact Or.inr ⟨List.mem_cons_of_mem _ hm, hne⟩

/-- One step of `firstOccKeys` from the right. -/
theorem firstOccKeys_step (l : List (Option Int)) (k : Option Int) :
    firstOccKeys (l ++ [k]) =
      if k ∈ firstOccKeys l then firstOccKeys l else firstOccKeys l ++ [k] := by
  simp [firstOccKeys, List.foldl_append]

/-- `firstOccKeys` keeps exactly the keys of the input. -/
theorem mem_firstOccKeys (k : Option Int) :
    ∀ l : List (Option Int), k ∈ firstOccKeys l ↔ k ∈ l := by
  intro l
  induction l using List.reverseRecOn with
  | nil => simp [firstOccKeys]
  | append_singleton l a ih =>
    rw [firstOccKeys_step]
    by_cases h : a ∈ firstOccKeys l
    · rw [if_pos h]
      constructor
      · intro hk; exact List.mem_append_left _ (ih.mp hk)
      · intro hk
        rcases List.mem_append.mp hk with hk | hk
        · exact ih.mpr hk
        · rcases List.mem_singleton.mp hk with rfl
          exact h
    · rw [if_neg h]
      simp [List.mem_append, ih]

/-- `firstOccKeys` never repeats a key. -/
theorem firstOccKeys_nodup : ∀ l : List (Option Int), (firstOccKeys l).Nodup := by
  intro l
  induction l using List.reverseRecOn with
  | nil => simp [firstOccKeys]
  | append_singleton l a ih =>
    rw [firstOccKeys_step]
    by_cases h : a ∈ firstOccKeys l
    · rw [if_pos h]; exact ih
    · rw [if_neg h]
      simp [List.nodup_append, ih, h]

/-- Characterization of the Python-dict fold of `mergeUniqueById`: its
keys are the candidate ids in first-occurrence order, each binding's
value carries its key as id, and each value is the LAST occurrence in
the input with that id. -/
theorem mergeDict_spec :
    ∀ ms : List Candidate,
      ((ms.foldl (fun d m => pyDictUpdate d m.id m) []).map Prod.fst
          = firstOccKeys (ms.map Candidate.id))
      ∧ (∀ e ∈ ms.foldl (fun d m => pyDictUpdate d m.id m) [], e.2.id = e.1)
      ∧ (∀ e ∈ ms.foldl (fun d m => pyDictUpdate d m.id m) [],
          (ms.filter (fun x => decide (x.id = e.1))).getLast? = some e.2) := by
  intro ms
  induction ms using List.reverseRecOn with
  | nil => exact ⟨by simp [firstOccKeys], by simp, by simp⟩
  | append_singleton ms m ih =>
    obtain ⟨ihk, ihkey, ihlast⟩ := ih
    have hstep : (ms ++ [m]).foldl (fun d mm => pyDictUpdate d mm.id mm) [] =
        pyDictUpdate (ms.foldl (fun d mm => pyDictUpdate d mm.id mm) []) m.id m := by
      simp [List.foldl_append]
    have hnodD : ((ms.foldl (fun d mm => pyDictUpdate d mm.id mm) []).map Prod.fst).Nodup := by
      rw [ihk]
      exact firstOccKeys_nodup _
    refine ⟨?_, ?_, ?_⟩
    · rw [hstep, pyDictUpdate_keys, ihk, List.map_append]
      simp only [List.map_cons, List.map_nil]
      rw [firstOccKeys_step]
    · intro e he
      rw [hstep] at he
      rcases pyDictUpdate_mem m.id m _ hnodD e he with rfl | ⟨hm, _⟩
      · rfl
      · exact ihkey e hm
    · intro e he
      rw [hstep] at he
      rcases pyDictUpdate_mem m.id m _ hnodD e he with rfl | ⟨hm, hne⟩
      · rw [List.filter_append]
        have h1 : [m].filter (fun x => decide (x.id = (m.id, m).1)) = [m] := by simp
        rw [h1, List.getLast?_concat]
      · rw [List.filter_append]
        have h1 : [m].filter (fun x => decide (x.id = e.1)) = [] := by
          have hff : (decide (m.id = e.1)) = false := decide_eq_false (fun h => hne h.symm)
          simp [List.filter, hff]
        rw [h1, List.append_nil]
        exact ihlast e hm

/-- C4 counterexample: when the same id appears in both discovery result
lists with different records, the merge keeps the record of the LAST
occurrence (at the first occurrence's position), not the first
occurrence's record as the claim states. -/
theorem merge_not_first_occurrence :
    get_movies_for_theme_mystery [⟨some 1, some 7, some 100⟩] [⟨some 1, some 7, some 200⟩]
      = [⟨some 1, some 7, some 200⟩]
    ∧ unionFirstOccurrence (([⟨some 1, some 7, some 100⟩] : List Candidate)
        ++ [⟨some 1, some 7, some 200⟩])
      = [⟨some 1, some 7, some 100⟩]
    ∧ get_movies_for_theme_mystery [⟨some 1, some 7, some 100⟩] [⟨some 1, some 7, some 200⟩]
      ≠ unionFirstOccurrence (([⟨some 1, some 7, some 100⟩] : List Candidate)
          ++ [⟨some 1, some 7, some 200⟩]) :=
  ⟨by decide, by decide, by decide⟩

/-- C4 amended: `get_movies_for_theme` for the multi-filter theme returns
one record per unique id, ordered by the id's first occurrence across
the concatenated discovery results, but the record kept for each id is
the one from the LAST occurrence of that id. -/
theorem mystery_union_last_wins :
    ∀ (results_a results_b : List Candidate),
      ((get_movies_for_theme_mystery results_a results_b).map Candidate.id
          = firstOccKeys ((results_a ++ results_b).map Candidate.id))
      ∧ ∀ m ∈ get_movies_for_theme_mystery results_a results_b,
          ((results_a ++ results_b).filter (fun x => decide (x.id = m.id))).getLast?
            = some m := by
  intro a b
  obtain ⟨hk, hkey, hlast⟩ := mergeDict_spec (a ++ b)
  constructor
  · unfold get_movies_for_theme_mystery mergeUniqueById
    rw [List.map_map]
    exact (List.map_eq_map_iff.mpr (fun e he => hkey e he)).trans hk
  · intro m hm
    unfold get_movies_for_theme_mystery mergeUniqueById at hm
    rcases List.mem_map.mp hm with ⟨e, hed, he2⟩
    have hkeq := hkey e hed
    have hl := hlast e hed
    rw [← he2, hkeq]
    exact hl

/-- Witness for C4 amended at a concrete overlap of the two result lists. -/
theorem mystery_union_last_wins_witness :
    ((get_movies_for_theme_mystery ([⟨some 1, some 7, some 100⟩] : List Candidate)
        ([⟨some 1, some 7, some 200⟩] : List Candidate)).map Candidate.id
      = firstOccKeys ((([⟨some 1, some 7, some 100⟩] : List Candidate)
          ++ ([⟨some 1, some 7, some 200⟩] : List Candidate)).map Candidate.id))
    ∧ ∀ m ∈ get_movies_for_theme_mystery ([⟨some 1, some 7, some 100⟩] : List Candidate)
        ([⟨some 1, some 7, some 200⟩] : List Candidate),
        ((([⟨some 1, some 7, some 100⟩] : List Candidate)
            ++ ([⟨some 1, some 7, some 200⟩] : List Candidate)).filter
          (fun x => decide (x.id = m.id))).getLast? = some m :=
  mystery_union_last_wins ([⟨some 1, some 7, some 100⟩] : List Candidate)
    ([⟨some 1, some 7, some 200⟩] : List Candidate)

/-! ## C9: the renderer -/

/-- The per-movie render loop depends on the outside world only through
the provider lookup at each movie's id. -/
theorem movieBlocks_congr (f g : Option Int → List String) :
    ∀ (movies : List MovieDetails) (idx : Nat),
      (∀ m ∈ movies, f m.id = g m.id) →
      movieBlocks f idx movies = movieBlocks g idx movies := by
  intro movies
  induction movies with
  | nil => intro idx _; rfl
  | cons m rest ih =>
    intro idx h
    have hm : f m.id = g m.id := h m (List.mem_cons_self _ _)
    have hr : ∀ m' ∈ rest, f m'.id = g m'.id := fun m' hm' => h m' (List.mem_cons_of_mem _ hm')
    simp only [movieBlocks]
    rw [ih (idx + 1) hr]
    unfold movieBlock
    rw [hm]

set_option maxRecDepth 8000 in
/-- C9 counterexample: `build_whatsapp_message` is NOT a function of the
movie list, theme label and date alone — it calls
`get_streaming_providers(m.get("id"))` itself (line 403), so two runs
with identical movies, label and date but different provider-lookup
responses produce different message strings. -/
theorem renderer_depends_on_provider_fetch :
    build_whatsapp_message
        [⟨some 1, none, none, none, none, none, none, [], none, [], none, none⟩]
        "Mix Theme" ⟨2025, 1, 1⟩ (fun _ => ["Netflix"])
      ≠ build_whatsapp_message
        [⟨some 1, none, none, none, none, none, none, [], none, [], none, none⟩]
        "Mix Theme" ⟨2025, 1, 1⟩ (fun _ => []) := by
  decide

/-- C9 amended: the renderer is pure and deterministic given the movie
list, theme label, date AND the provider-lookup results for the listed
movie ids — any two provider oracles agreeing on those ids render the
identical string. -/
theorem renderer_deterministic_given_provider_results :
    ∀ (movies : List MovieDetails) (theme_label : String) (today_pk : PyDate)
      (f g : Option Int → List String),
      (∀ m ∈ movies, f m.id = g m.id) →
      build_whatsapp_message movies theme_label today_pk f =
        build_whatsapp_message movies theme_label today_pk g := by
  intro movies label today f g h
  unfold build_whatsapp_message
  rw [movieBlocks_congr f g movies 1 h]

/-- Witness for C9 amended: two syntactically different oracles agreeing
on the listed id render identically. -/
theorem renderer_deterministic_given_provider_results_witness :
    build_whatsapp_message
        [⟨some 2, none, none, none, none, none, none, [], none, [], none, none⟩]
        "Mix Theme" ⟨2025, 1, 1⟩ (fun i => if i = some 2 then ["Hulu"] else ["x"])
      = build_whatsapp_message
        [⟨some 2, none, none, none, none, none, none, [], none, [], none, none⟩]
        "Mix Theme" ⟨2025, 1, 1⟩ (fun _ => ["Hulu"]) :=
  renderer_deterministic_given_provider_results
    [⟨some 2, none, none, none, none, none, none, [], none, [], none, none⟩]
    "Mix Theme" ⟨2025, 1, 1⟩ (fun i => if i = some 2 then ["Hulu"] else ["x"])
    (fun _ => ["Hulu"])
    (by intro m hm; simp at hm; rw [hm]; rfl)

end MovieAgent
